import Mathlib

/-!
Verification development for the AutoKB input arbitration and playback
scheduling core (src-tauri/src: script.rs, player.rs, recorder.rs,
hotkey.rs, macro_trigger.rs, input_manager.rs, lib.rs).

Shallow embedding conventions:
* Rust `u64` / `u32` / `usize` fields are modelled as `Nat`, `i64` as `Int`.
* Rust `f64` values (mouse coordinates, speed multiplier) are modelled as
  `ℚ`; `x as i32` / `x as u64` truncation toward zero is modelled with
  exact rational truncation.
* `std::time::Instant` values are modelled as `Nat` millisecond timestamps;
  `Instant::now()` becomes an explicit `now : Nat` argument.
* The concurrently written `stop_requested` flag read by the playback
  worker is modelled as a read oracle `σ : Nat → Bool`: `σ k` is the value
  the k-th `should_stop()` load observes.
* OS-level synthesis (enigo) is modelled as a trace of `SynthAction`s; the
  OS injection calls themselves are assumed to succeed (their failure is an
  environment condition outside the code under verification).
-/

/-- Mouse button types (script.rs `MouseButton`). -/
inductive MouseButton
  | Left
  | Right
  | Middle
  | Back
  | Forward
  | Unknown
deriving DecidableEq

/-- Keyboard key representation (script.rs `KeyboardKey`): a printable
character or a named special key. -/
inductive KeyboardKey
  | Char (c : Char)
  | Special (s : String)
deriving DecidableEq

/-- The subset of `rdev::Key` values used in this development (the external
`rdev` crate's key enum, restricted to the keys the proofs mention). -/
inductive RdevKey
  | F5
  | F9
  | F10
  | Escape
  | KeyA
deriving DecidableEq

/-- The subset of `rdev::Button`. `Unknown` carries the raw button code. -/
inductive RdevButton
  | Left
  | Right
  | Middle
  | Unknown (code : Nat)
deriving DecidableEq

/-- script.rs `impl From<rdev::Key> for KeyboardKey`, restricted to the
`RdevKey` subset (each arm copied from the source match). -/
def keyFromRdev : RdevKey → KeyboardKey
  | .F5 => .Special "F5"
  | .F9 => .Special "F9"
  | .F10 => .Special "F10"
  | .Escape => .Special "Escape"
  | .KeyA => .Char 'a'

/-- script.rs `impl From<rdev::Button> for MouseButton`. -/
def MouseButton.fromRdev : RdevButton → MouseButton
  | .Left => .Left
  | .Right => .Right
  | .Middle => .Middle
  | .Unknown 1 => .Back
  | .Unknown 2 => .Forward
  | .Unknown _ => .Unknown

/-- A single input event (script.rs `ScriptEvent`). `delay_ms` is the wait
before the event fires, relative to the previous committed event. -/
inductive ScriptEvent
  | KeyPress (key : KeyboardKey) (delay_ms : Nat)
  | KeyRelease (key : KeyboardKey) (delay_ms : Nat)
  | MousePress (button : MouseButton) (x y : ℚ) (delay_ms : Nat)
  | MouseRelease (button : MouseButton) (x y : ℚ) (delay_ms : Nat)
  | MouseMove (x y : ℚ) (delay_ms : Nat)
  | MouseScroll (delta_x delta_y : Int) (delay_ms : Nat)
deriving DecidableEq

/-- script.rs `ScriptEvent::delay_ms`. -/
def ScriptEvent.delay_ms : ScriptEvent → Nat
  | .KeyPress _ d => d
  | .KeyRelease _ d => d
  | .MousePress _ _ _ d => d
  | .MouseRelease _ _ _ d => d
  | .MouseMove _ _ d => d
  | .MouseScroll _ _ d => d

/-- script.rs `ScriptEvent::set_delay_ms`. -/
def ScriptEvent.set_delay_ms : ScriptEvent → Nat → ScriptEvent
  | .KeyPress k _, d => .KeyPress k d
  | .KeyRelease k _, d => .KeyRelease k d
  | .MousePress b x y _, d => .MousePress b x y d
  | .MouseRelease b x y _, d => .MouseRelease b x y d
  | .MouseMove x y _, d => .MouseMove x y d
  | .MouseScroll dx dy _, d => .MouseScroll dx dy d

/-- script.rs `MacroTrigger`. -/
inductive MacroTrigger
  | KeyPress (key : KeyboardKey)
  | MousePress (button : MouseButton)
deriving DecidableEq

/-- A macro definition. The behaviour-bearing code (macro_trigger.rs
`check_and_execute`, `create_macro_binding`, and lib.rs) uses a
`script_path : String` action field, so that schema is modelled here
(script.rs's declaration carries an inline `events` list instead; the two
are mutually exclusive evolutions of the same entity and only the
`script_path` one is executed anywhere). -/
structure MacroDefinition where
  id : String
  name : String
  trigger : MacroTrigger
  script_path : String
  enabled : Bool
deriving DecidableEq

/-- script.rs `LoopConfig`: `count == 0` means infinite looping. -/
structure LoopConfig where
  count : Nat
  delay_between_ms : Nat
deriving DecidableEq

/-- script.rs `impl Default for LoopConfig`. -/
def LoopConfig.default : LoopConfig :=
  { count := 1, delay_between_ms := 0 }

/-- Modelled from the spec: `chrono::DateTime<Utc>` timestamps (an external
crate) serialize to an RFC3339 string and parse back to an equal value; the
value is modelled by its canonical string form. -/
structure DateTimeUtc where
  rfc3339 : String
deriving DecidableEq

/-- script.rs `Script`. -/
structure Script where
  name : String
  description : String
  created_at : DateTimeUtc
  modified_at : DateTimeUtc
  events : List ScriptEvent
  loop_config : LoopConfig
  speed_multiplier : ℚ
deriving DecidableEq

/-- script.rs `impl Default for Script`; `Utc::now()` is passed in as the
explicit `now` timestamp. -/
def Script.defaultAt (now : DateTimeUtc) : Script :=
  { name := "Untitled Script"
    description := ""
    created_at := now
    modified_at := now
    events := []
    loop_config := LoopConfig.default
    speed_multiplier := 1 }

/-- The enigo key identities produced by player.rs
`keyboard_key_to_enigo` (external `enigo::Key`, restricted to the
constructors that function emits). -/
inductive EnigoKey
  | Unicode (c : Char)
  | Alt | Backspace | CapsLock | Control | Delete | DownArrow | End
  | Escape
  | F1 | F2 | F3 | F4 | F5 | F6 | F7 | F8 | F9 | F10 | F11 | F12
  | Home | LeftArrow | Meta | PageDown | PageUp | Return | RightArrow
  | Shift | Space | Tab | UpArrow
deriving DecidableEq

/-- External `enigo::Button`, restricted to the values the code emits. -/
inductive EnigoButton
  | Left
  | Right
  | Middle
  | Back
  | Forward
deriving DecidableEq

/-- player.rs `keyboard_key_to_enigo`: maps the abstract key identity to
the host's native identity; unknown special names map to `none` and are
silently skipped at synthesis time. -/
def keyboard_key_to_enigo : KeyboardKey → Option EnigoKey
  | .Char c => some (.Unicode c)
  | .Special s =>
    match s with
    | "Alt" => some .Alt
    | "Backspace" => some .Backspace
    | "CapsLock" => some .CapsLock
    | "ControlLeft" => some .Control
    | "ControlRight" => some .Control
    | "Delete" => some .Delete
    | "DownArrow" => some .DownArrow
    | "End" => some .End
    | "Escape" => some .Escape
    | "F1" => some .F1
    | "F2" => some .F2
    | "F3" => some .F3
    | "F4" => some .F4
    | "F5" => some .F5
    | "F6" => some .F6
    | "F7" => some .F7
    | "F8" => some .F8
    | "F9" => some .F9
    | "F10" => some .F10
    | "F11" => some .F11
    | "F12" => some .F12
    | "Home" => some .Home
    | "LeftArrow" => some .LeftArrow
    | "MetaLeft" => some .Meta
    | "MetaRight" => some .Meta
    | "PageDown" => some .PageDown
    | "PageUp" => some .PageUp
    | "Return" => some .Return
    | "RightArrow" => some .RightArrow
    | "ShiftLeft" => some .Shift
    | "ShiftRight" => some .Shift
    | "Space" => some .Space
    | "Tab" => some .Tab
    | "UpArrow" => some .UpArrow
    | _ => none

/-- script.rs `impl From<MouseButton> for enigo::Button`: note that
`Unknown` maps to `Left`. -/
def mouseButtonToEnigo : MouseButton → EnigoButton
  | .Left => .Left
  | .Right => .Right
  | .Middle => .Middle
  | .Back => .Back
  | .Forward => .Forward
  | .Unknown => .Left

/-- One synthesized OS input primitive (an enigo call made by
player.rs `execute_event`). -/
inductive SynthAction
  | keyDown (k : EnigoKey)
  | keyUp (k : EnigoKey)
  | mouseMoveAbs (x y : Int)
  | buttonDown (b : EnigoButton)
  | buttonUp (b : EnigoButton)
  | scrollV (amount : Int)
  | scrollH (amount : Int)
deriving DecidableEq

/-- Rust `as`-style truncation toward zero of a rational (`f64 as i32`);
`Int` division already truncates toward zero. -/
def ratTrunc (q : ℚ) : Int := q.num / (q.den : Int)

/-- player.rs `PlaybackState`. -/
structure PlaybackState where
  is_playing : Bool
  current_loop : Nat
  current_event : Nat
  stop_requested : Bool
deriving DecidableEq

/-- player.rs `PlaybackState::new`. -/
def PlaybackState.new : PlaybackState :=
  { is_playing := false, current_loop := 0, current_event := 0, stop_requested := false }

/-- player.rs `PlaybackState::start`: reset counters and the stop flag,
then mark playback active. -/
def PlaybackState.start (s : PlaybackState) : PlaybackState :=
  { s with current_loop := 0, current_event := 0, stop_requested := false, is_playing := true }

/-- player.rs `PlaybackState::stop`. -/
def PlaybackState.stop (s : PlaybackState) : PlaybackState :=
  { s with stop_requested := true, is_playing := false }

/-- player.rs `PlaybackState::increment_loop`: bump the loop counter and
return its new value together with the updated state. -/
def PlaybackState.increment_loop (s : PlaybackState) : Nat × PlaybackState :=
  (s.current_loop + 1, { s with current_loop := s.current_loop + 1 })

/-- player.rs `PlaybackState::set_event_index`. -/
def PlaybackState.set_event_index (s : PlaybackState) (index : Nat) : PlaybackState :=
  { s with current_event := index }

/-- player.rs `PlaybackState::finish`: clear the active flag (the GUI
notifications it also emits are outside this model). -/
def PlaybackState.finish (s : PlaybackState) : PlaybackState :=
  { s with is_playing := false }

/-- player.rs `play_script` start-time validation (lines 235-247): the two
synchronous failure cases, and otherwise `state.start()` plus spawning the
worker. The third component is the script handed to the spawned worker
(`none` = no worker spawned). -/
def play_script (st : PlaybackState) (script : Script) :
    Except String Unit × PlaybackState × Option Script :=
  if st.is_playing then (.error "Already playing", st, none)
  else if script.events.isEmpty then (.error "Script has no events", st, none)
  else (.ok (), st.start, some script)

/-- player.rs `play_events`: wrap the list in a `Script::default()` shell
(carrying the given events and speed) and call `play_script`. -/
def play_events (st : PlaybackState) (events : List ScriptEvent) (speed_multiplier : ℚ)
    (now : DateTimeUtc) : Except String Unit × PlaybackState × Option Script :=
  play_script st { Script.defaultAt now with events := events, speed_multiplier := speed_multiplier }

/-- recorder.rs `RecordingState`. Timestamps are `Nat` milliseconds. -/
structure RecordingState where
  is_recording : Bool
  events : List ScriptEvent
  start_time : Option Nat
  last_event_time : Option Nat
  mouse_position : ℚ × ℚ
deriving DecidableEq

/-- recorder.rs `RecordingState::new`. -/
def RecordingState.new : RecordingState :=
  { is_recording := false, events := [], start_time := none, last_event_time := none
    mouse_position := (0, 0) }

/-- recorder.rs `RecordingState::start`: clear the log, reset both clocks
to now, set the flag (the cursor cache is not reset). -/
def RecordingState.start (s : RecordingState) (now : Nat) : RecordingState :=
  { s with events := [], start_time := some now, last_event_time := some now
           is_recording := true }

/-- recorder.rs `RecordingState::stop`: clears the flag only. -/
def RecordingState.stop (s : RecordingState) : RecordingState :=
  { s with is_recording := false }

/-- recorder.rs `RecordingState::get_elapsed_ms`: milliseconds since the
last committed event (0 if the clock was never set). -/
def RecordingState.get_elapsed_ms (s : RecordingState) (now : Nat) : Nat :=
  match s.last_event_time with
  | some t => now - t
  | none => 0

/-- recorder.rs `RecordingState::commit_event`: no-op unless recording;
otherwise advance the delay clock to now and append the event as given. -/
def RecordingState.commit_event (s : RecordingState) (now : Nat) (event : ScriptEvent) :
    RecordingState :=
  if s.is_recording then
    { s with last_event_time := some now, events := s.events ++ [event] }
  else s

/-- recorder.rs `RecordingState::update_mouse_position`. -/
def RecordingState.update_mouse_position (s : RecordingState) (x y : ℚ) : RecordingState :=
  { s with mouse_position := (x, y) }

/-- recorder.rs `RecordingState::get_mouse_position`. -/
def RecordingState.get_mouse_position (s : RecordingState) : ℚ × ℚ :=
  s.mouse_position

/-- recorder.rs `record_event_direct`: when recording, re-stamp the event's
delay from the backend clock and commit it. -/
def record_event_direct (s : RecordingState) (now : Nat) (event : ScriptEvent) :
    RecordingState :=
  if s.is_recording then
    s.commit_event now (event.set_delay_ms (s.get_elapsed_ms now))
  else s

/-- hotkey.rs `HotkeyState`: the three independently rebindable hotkeys. -/
structure HotkeyState where
  recording_key : RdevKey
  playback_key : RdevKey
  stop_key : RdevKey
deriving DecidableEq

/-- hotkey.rs `HotkeyState::new`: defaults F9 / F10 / Escape. -/
def HotkeyState.new : HotkeyState :=
  { recording_key := .F9, playback_key := .F10, stop_key := .Escape }

/-- hotkey.rs `set_hotkeys`: update whichever bindings are provided. -/
def set_hotkeys (st : HotkeyState) (recording playback stop : Option RdevKey) : HotkeyState :=
  { recording_key := recording.getD st.recording_key
    playback_key := playback.getD st.playback_key
    stop_key := stop.getD st.stop_key }

/-- macro_trigger.rs `get_trigger_id` renders Rust `{:?}` debug formatting
of the trigger payload; these helpers mirror that formatting. -/
def debugQuoteChar : String := String.singleton (Char.ofNat 39)

/-- Double-quote character used by Rust debug formatting of strings. -/
def debugQuoteStr : String := String.singleton (Char.ofNat 34)

/-- Rust `{:?}` rendering of a `KeyboardKey` value. -/
def keyboardKeyDebug : KeyboardKey → String
  | .Char c => "Char(" ++ debugQuoteChar ++ String.singleton c ++ debugQuoteChar ++ ")"
  | .Special s => "Special(" ++ debugQuoteStr ++ s ++ debugQuoteStr ++ ")"

/-- Rust `{:?}` rendering of a `MouseButton` value. -/
def mouseButtonDebug : MouseButton → String
  | .Left => "Left"
  | .Right => "Right"
  | .Middle => "Middle"
  | .Back => "Back"
  | .Forward => "Forward"
  | .Unknown => "Unknown"

/-- macro_trigger.rs `get_trigger_id`: the deterministic trigger-identity
string used as the map key. -/
def get_trigger_id : MacroTrigger → String
  | .KeyPress key => "key:" ++ keyboardKeyDebug key
  | .MousePress button => "mouse:" ++ mouseButtonDebug button

/-- macro_trigger.rs `MacroState`: the listening flag and the trigger-id
keyed map, modelled as an association list with `HashMap::insert`
replace-on-collision semantics. -/
structure MacroState where
  is_active : Bool
  macros : List (String × MacroDefinition)
deriving DecidableEq

/-- macro_trigger.rs `MacroState::new`. -/
def MacroState.new : MacroState :=
  { is_active := false, macros := [] }

/-- `HashMap::insert` on the association-list model: replace the binding at
the key if present, otherwise add one. -/
def assocInsert (m : List (String × MacroDefinition)) (k : String) (v : MacroDefinition) :
    List (String × MacroDefinition) :=
  if m.any (fun p => p.1 = k) then
    m.map (fun p => if p.1 = k then (k, v) else p)
  else m ++ [(k, v)]

/-- `HashMap::get` on the association-list model. -/
def assocFind (m : List (String × MacroDefinition)) (k : String) : Option MacroDefinition :=
  match m with
  | [] => none
  | (k2, v) :: rest => if k2 = k then some v else assocFind rest k

/-- macro_trigger.rs `MacroState::add_macro`: insert or replace the binding
at the derived trigger identity. -/
def MacroState.add_macro_entry (st : MacroState) (mdef : MacroDefinition) : MacroState :=
  { st with macros := assocInsert st.macros (get_trigger_id mdef.trigger) mdef }

/-- macro_trigger.rs `MacroState::remove_macro`: delete by definition id. -/
def MacroState.remove_macro_entry (st : MacroState) (id : String) : MacroState :=
  { st with macros := st.macros.filter (fun p => p.2.id ≠ id) }

/-- macro_trigger.rs `MacroState::get_all_macros`. -/
def MacroState.get_all_macros (st : MacroState) : List MacroDefinition :=
  st.macros.map (fun p => p.2)

/-- macro_trigger.rs `MacroState::find_by_trigger`. -/
def MacroState.find_by_trigger (st : MacroState) (trigger : MacroTrigger) :
    Option MacroDefinition :=
  assocFind st.macros (get_trigger_id trigger)

/-- player.rs `execute_event` delay computation:
`(event.delay_ms() as f64 / speed_multiplier) as u64`, with the f64
arithmetic modelled as exact rational arithmetic and the `as u64` cast as
truncation toward zero (clamped at 0 for non-positive quotients). -/
def adjDelay (delay_ms : Nat) (speed_multiplier : ℚ) : Nat :=
  (⌊(delay_ms : ℚ) / speed_multiplier⌋).toNat

/-- player.rs `execute_event` slice loop (lines 149-166): sleep the delay
in 100 ms chunks, re-checking the stop flag before each chunk. Arguments:
oracle read index `t`, remaining milliseconds; `fuel` bounds the recursion
and is immaterial whenever `remaining ≤ fuel` (each iteration sleeps at
least 1 ms). Returns (stop observed?, total slept, next read index). -/
def sliceWait (σ : Nat → Bool) : Nat → Nat → Nat → Bool × Nat × Nat
  | _, t, 0 => (false, 0, t)
  | 0, t, _ + 1 => (false, 0, t)
  | fuel + 1, t, r + 1 =>
    if σ t then (true, 0, t + 1)
    else
      let remaining := r + 1
      let sleep_time := if remaining > 100 then 100 else remaining
      let rest := sliceWait σ fuel (t + 1) (remaining - sleep_time)
      (rest.1, sleep_time + rest.2.1, rest.2.2)

/-- The enigo calls made by player.rs `execute_event` for one event (lines
173-229): key events are skipped when unmappable; button events are
preceded by a move to the recorded position when `use_recorded_position`;
scroll emits vertical then horizontal with negated deltas, skipping zero
components. -/
def synthActions (event : ScriptEvent) (use_recorded_position : Bool) : List SynthAction :=
  match event with
  | .KeyPress key _ =>
    match keyboard_key_to_enigo key with
    | some k => [.keyDown k]
    | none => []
  | .KeyRelease key _ =>
    match keyboard_key_to_enigo key with
    | some k => [.keyUp k]
    | none => []
  | .MousePress button x y _ =>
    (if use_recorded_position then [.mouseMoveAbs (ratTrunc x) (ratTrunc y)] else [])
      ++ [.buttonDown (mouseButtonToEnigo button)]
  | .MouseRelease button x y _ =>
    (if use_recorded_position then [.mouseMoveAbs (ratTrunc x) (ratTrunc y)] else [])
      ++ [.buttonUp (mouseButtonToEnigo button)]
  | .MouseMove x y _ => [.mouseMoveAbs (ratTrunc x) (ratTrunc y)]
  | .MouseScroll delta_x delta_y _ =>
    (if delta_y ≠ 0 then [.scrollV (-delta_y)] else [])
      ++ (if delta_x ≠ 0 then [.scrollH (-delta_x)] else [])

/-- player.rs `execute_event`: wait for the speed-scaled delay in
interruptible slices, re-check the stop flag once more, then synthesize.
Returns (result, milliseconds slept, synthesized actions, next oracle read
index). -/
def execute_event (σ : Nat → Bool) (t : Nat) (event : ScriptEvent) (speed_multiplier : ℚ)
    (use_recorded_position : Bool) : Except String Unit × Nat × List SynthAction × Nat :=
  let delay_ms := adjDelay event.delay_ms speed_multiplier
  let w := if delay_ms > 0 then sliceWait σ delay_ms t delay_ms else (false, 0, t)
  if w.1 then (.error "Playback stopped", w.2.1, [], w.2.2)
  else if σ w.2.2 then (.error "Playback stopped", w.2.1, [], w.2.2 + 1)
  else (.ok (), w.2.1, synthActions event use_recorded_position, w.2.2 + 1)

/-- player.rs worker inner `for` loop (lines 284-298): run the enumerated
events in order, updating the progress index, breaking on an execution
error or an observed stop request. Returns (state, actions synthesized,
next read index, error observed?, stop-break observed?). -/
def run_events (σ : Nat → Bool) (speed_multiplier : ℚ) (use_recorded_position : Bool) :
    Nat → List (Nat × ScriptEvent) → PlaybackState →
    PlaybackState × List SynthAction × Nat × Bool × Bool
  | t, [], st => (st, [], t, false, false)
  | t, (index, event) :: rest, st =>
    let st1 := st.set_event_index index
    let r := execute_event σ t event speed_multiplier use_recorded_position
    match r.1 with
    | .error _ => (st1, r.2.2.1, r.2.2.2, true, false)
    | .ok _ =>
      if σ r.2.2.2 then (st1, r.2.2.1, r.2.2.2 + 1, false, true)
      else
        let rec2 := run_events σ speed_multiplier use_recorded_position (r.2.2.2 + 1) rest st1
        (rec2.1, r.2.2.1 ++ rec2.2.1, rec2.2.2)

/-- player.rs worker outer loop (lines 271-304): bump the loop counter,
break when the bound is exceeded (finite case) or a stop was requested,
else run the whole event list, then the inter-loop delay. One unit of
`fuel` corresponds to one outer iteration; `none` means the loop was still
running when the fuel ran out (the infinite case). Returns the state after
`finish()` and the concatenated synthesis trace. -/
def play_loop (σ : Nat → Bool) (speed_multiplier : ℚ) (events : List ScriptEvent)
    (loop_count : Nat) (delay_between_ms : Nat) (use_recorded_position : Bool) :
    Nat → Nat → PlaybackState → Option (PlaybackState × List SynthAction)
  | 0, _, _ => none
  | fuel + 1, t, st =>
    let inc := st.increment_loop
    if loop_count ≠ 0 ∧ inc.1 > loop_count then some (inc.2.finish, [])
    else if σ t then some (inc.2.finish, [])
    else
      let r := run_events σ speed_multiplier use_recorded_position (t + 1) events.enum inc.2
      if r.2.2.2.1 then some (r.1.finish, r.2.1)
      else
        let t2 := if delay_between_ms > 0 then r.2.2.1 + 1 else r.2.2.1
        match play_loop σ speed_multiplier events loop_count delay_between_ms
            use_recorded_position fuel t2 r.1 with
        | none => none
        | some (stF, acts) => some (stF, r.2.1 ++ acts)

/-- Whether a script contains an explicit pointer-move event (player.rs
lines 266-269); when it does, button events replay at recorded
coordinates. -/
def hasMouseMoves (events : List ScriptEvent) : Bool :=
  events.any (fun e => match e with | .MouseMove _ _ _ => true | _ => false)

/-- The playback worker spawned by `play_script` (player.rs lines
248-307), starting from the state `play_script` just reset and oracle read
index 0. -/
def play_worker (σ : Nat → Bool) (script : Script) (fuel : Nat) :
    Option (PlaybackState × List SynthAction) :=
  play_loop σ script.speed_multiplier script.events script.loop_config.count
    script.loop_config.delay_between_ms (hasMouseMoves script.events) fuel 0
    PlaybackState.new.start

/-- One full pass of the worker over the script's events: the synthesis
trace of executing the event sequence once with no stop observed. -/
def passTrace (script : Script) : List SynthAction :=
  (script.events.map (fun e => synthActions e (hasMouseMoves script.events))).flatten

/-- Observable side effects of one arbiter invocation: an event committed
to the recorder's log, a trigger dispatched to the macro table's
check-and-execute, a `"hotkey-event"` notification emitted to the GUI, or
a macro action handed to a playback worker. -/
inductive Effect
  | committed (e : ScriptEvent)
  | macroChecked (trigger : MacroTrigger)
  | emitted (action : String) (recording playing : Bool)
  | macroFired (script_path : String)
deriving DecidableEq

/-- macro_trigger.rs `MacroState::check_and_execute`: no-op unless
listening; on a matching enabled binding with a non-empty action, hand the
script path to a fresh worker. Returns whether a match fired plus the
spawn effect. -/
def MacroState.check_and_execute (st : MacroState) (trigger : MacroTrigger) :
    Bool × List Effect :=
  if !st.is_active then (false, [])
  else
    match st.find_by_trigger trigger with
    | some mdef =>
      if mdef.enabled && !mdef.script_path.isEmpty then
        (true, [.macroFired mdef.script_path])
      else (false, [])
    | none => (false, [])

/-- The subset of `rdev::EventType` delivered by the hook. -/
inductive RdevEventType
  | KeyPress (key : RdevKey)
  | KeyRelease (key : RdevKey)
  | ButtonPress (button : RdevButton)
  | ButtonRelease (button : RdevButton)
  | MouseMove (x y : ℚ)
  | Wheel (delta_x delta_y : Int)
deriving DecidableEq

/-- The four process-wide state singletons reachable from the arbiter. -/
structure World where
  recState : RecordingState
  playState : PlaybackState
  macroState : MacroState
  hotkeyState : HotkeyState
deriving DecidableEq

/-- input_manager.rs `handle_event` step 3 (lines 260-312): recording
capture. `elapsed` is computed once, before dispatching on the event kind;
pointer moves always refresh the cursor cache but are committed only when
at least 20 ms elapsed since the last committed event; button events carry
the cached cursor position. Called only when recording is active. -/
def recordStep (event : RdevEventType) (now : Nat) (r : RecordingState) :
    RecordingState × List Effect :=
  let elapsed := r.get_elapsed_ms now
  match event with
  | .KeyPress key =>
    let e := ScriptEvent.KeyPress (keyFromRdev key) elapsed
    (r.commit_event now e, [.committed e])
  | .KeyRelease key =>
    let e := ScriptEvent.KeyRelease (keyFromRdev key) elapsed
    (r.commit_event now e, [.committed e])
  | .ButtonPress button =>
    let p := r.get_mouse_position
    let e := ScriptEvent.MousePress (MouseButton.fromRdev button) p.1 p.2 elapsed
    (r.commit_event now e, [.committed e])
  | .ButtonRelease button =>
    let p := r.get_mouse_position
    let e := ScriptEvent.MouseRelease (MouseButton.fromRdev button) p.1 p.2 elapsed
    (r.commit_event now e, [.committed e])
  | .MouseMove x y =>
    let r1 := r.update_mouse_position x y
    if elapsed ≥ 20 then
      let e := ScriptEvent.MouseMove x y elapsed
      (r1.commit_event now e, [.committed e])
    else (r1, [])
  | .Wheel delta_x delta_y =>
    let e := ScriptEvent.MouseScroll delta_x delta_y elapsed
    (r.commit_event now e, [.committed e])

/-- input_manager.rs `handle_event` step 4 (lines 315-332): build a
trigger from a key or button press and dispatch it to the macro table.
Called only when macro listening is active and recording is not. -/
def macroStep (event : RdevEventType) (m : MacroState) : List Effect :=
  match event with
  | .KeyPress key =>
    let trigger := MacroTrigger.KeyPress (keyFromRdev key)
    .macroChecked trigger :: (m.check_and_execute trigger).2
  | .ButtonPress button =>
    let trigger := MacroTrigger.MousePress (MouseButton.fromRdev button)
    .macroChecked trigger :: (m.check_and_execute trigger).2
  | _ => []

/-- input_manager.rs `handle_event` steps 2-4: the playback guard, then
recording capture, then macro dispatch (which re-reads the recording
flag, unchanged by step 3). -/
def afterHotkeys (event : RdevEventType) (now : Nat) (w : World) : World × List Effect :=
  if w.playState.is_playing then (w, [])
  else
    let s3 := if w.recState.is_recording then recordStep event now w.recState
              else (w.recState, [])
    let w1 : World := { w with recState := s3.1 }
    let eff4 := if w1.macroState.is_active && !w1.recState.is_recording then
                  macroStep event w1.macroState
                else []
    (w1, s3.2 ++ eff4)

/-- input_manager.rs `handle_event` (lines 108-333). Step 1 matches key
presses of the literal keys F9 / F10 / Escape (the `HotkeyState`
bindings are not consulted) and returns without routing them further;
every other event flows through the playback guard, recording capture and
macro dispatch. GUI window manipulation is outside the model; the
`"hotkey-event"` emissions are recorded as effects. -/
def handle_event (event : RdevEventType) (now : Nat) (w : World) : World × List Effect :=
  match event with
  | .KeyPress .F9 =>
    if w.recState.is_recording then
      ({ w with recState := w.recState.stop },
       [.emitted "recording-stopped" false w.playState.is_playing])
    else if !w.playState.is_playing then
      ({ w with recState := w.recState.start now },
       [.emitted "recording-started" true false])
    else (w, [])
  | .KeyPress .F10 =>
    if w.playState.is_playing then
      ({ w with playState := w.playState.stop },
       [.emitted "playback-stopped" w.recState.is_recording false])
    else (w, [.emitted "playback-requested" w.recState.is_recording false])
  | .KeyPress .Escape =>
    let was_recording := w.recState.is_recording
    let was_playing := w.playState.is_playing
    let w1 := if was_recording then { w with recState := w.recState.stop } else w
    let w2 := if was_playing then { w1 with playState := w1.playState.stop } else w1
    if was_recording || was_playing then (w2, [.emitted "emergency-stop" false false])
    else (w2, [])
  | _ => afterHotkeys event now w

/-- A JSON document tree. The persistence layer (lib.rs `save_script` /
`load_script` via serde_json) is modelled at the tree level; numbers are
exact rationals (f64 rounding of finite values is not modelled, matching
the exact-rational treatment of f64 throughout this file). -/
inductive Json
  | null
  | bool (b : Bool)
  | num (q : ℚ)
  | str (s : String)
  | arr (items : List Json)
  | obj (fields : List (String × Json))

/-- Object field lookup, as serde's map-driven deserialization reads named
fields. -/
def jLookup (k : String) : List (String × Json) → Option Json
  | [] => none
  | (k2, v) :: rest => if k2 = k then some v else jLookup k rest

/-- Field access on a JSON value. -/
def jGet (j : Json) (k : String) : Option Json :=
  match j with
  | .obj fields => jLookup k fields
  | _ => none

/-- Decode a u64 field: an integral, non-negative JSON number. -/
def natFromJson (j : Json) : Option Nat :=
  match j with
  | .num q => if q.den = 1 ∧ 0 ≤ q.num then some q.num.toNat else none
  | _ => none

/-- Decode an i64 field: an integral JSON number. -/
def intFromJson (j : Json) : Option Int :=
  match j with
  | .num q => if q.den = 1 then some q.num else none
  | _ => none

/-- Decode an f64 field (modelled as an exact rational). -/
def ratFromJson (j : Json) : Option ℚ :=
  match j with
  | .num q => some q
  | _ => none

/-- serde serializes `MouseButton` with `rename_all = "lowercase"`. -/
def mouseButtonToJson : MouseButton → Json
  | .Left => .str "left"
  | .Right => .str "right"
  | .Middle => .str "middle"
  | .Back => .str "back"
  | .Forward => .str "forward"
  | .Unknown => .str "unknown"

/-- Parse a lowercase mouse-button name. -/
def mouseButtonFromJson (j : Json) : Option MouseButton :=
  match j with
  | .str "left" => some .Left
  | .str "right" => some .Right
  | .str "middle" => some .Middle
  | .str "back" => some .Back
  | .str "forward" => some .Forward
  | .str "unknown" => some .Unknown
  | _ => none

/-- serde serializes `KeyboardKey` adjacently tagged
(`tag = "type", content = "value"`); a Rust `char` becomes a one-character
string. -/
def keyboardKeyToJson : KeyboardKey → Json
  | .Char c => .obj [("type", .str "Char"), ("value", .str (String.singleton c))]
  | .Special s => .obj [("type", .str "Special"), ("value", .str s)]

/-- Parse an adjacently tagged `KeyboardKey`. -/
def keyboardKeyFromJson (j : Json) : Option KeyboardKey :=
  match jGet j "type", jGet j "value" with
  | some (.str "Char"), some (.str v) =>
    match v.data with
    | [c] => some (.Char c)
    | _ => none
  | some (.str "Special"), some (.str v) => some (.Special v)
  | _, _ => none

/-- serde serializes `ScriptEvent` internally tagged
(`tag = "event_type"`): the discriminator field plus the variant's fields
in declaration order, plus `delay_ms`. -/
def scriptEventToJson : ScriptEvent → Json
  | .KeyPress key d =>
    .obj [("event_type", .str "KeyPress"), ("key", keyboardKeyToJson key),
          ("delay_ms", .num d)]
  | .KeyRelease key d =>
    .obj [("event_type", .str "KeyRelease"), ("key", keyboardKeyToJson key),
          ("delay_ms", .num d)]
  | .MousePress b x y d =>
    .obj [("event_type", .str "MousePress"), ("button", mouseButtonToJson b),
          ("x", .num x), ("y", .num y), ("delay_ms", .num d)]
  | .MouseRelease b x y d =>
    .obj [("event_type", .str "MouseRelease"), ("button", mouseButtonToJson b),
          ("x", .num x), ("y", .num y), ("delay_ms", .num d)]
  | .MouseMove x y d =>
    .obj [("event_type", .str "MouseMove"), ("x", .num x), ("y", .num y),
          ("delay_ms", .num d)]
  | .MouseScroll dx dy d =>
    .obj [("event_type", .str "MouseScroll"), ("delta_x", .num dx), ("delta_y", .num dy),
          ("delay_ms", .num d)]

/-- Parse an internally tagged `ScriptEvent`: dispatch on the
`event_type` discriminator, then read the variant's named fields. -/
def scriptEventFromJson (j : Json) : Option ScriptEvent :=
  match jGet j "event_type" with
  | some (.str "KeyPress") => do
    let key ← keyboardKeyFromJson (← jGet j "key")
    let d ← natFromJson (← jGet j "delay_ms")
    some (.KeyPress key d)
  | some (.str "KeyRelease") => do
    let key ← keyboardKeyFromJson (← jGet j "key")
    let d ← natFromJson (← jGet j "delay_ms")
    some (.KeyRelease key d)
  | some (.str "MousePress") => do
    let b ← mouseButtonFromJson (← jGet j "button")
    let x ← ratFromJson (← jGet j "x")
    let y ← ratFromJson (← jGet j "y")
    let d ← natFromJson (← jGet j "delay_ms")
    some (.MousePress b x y d)
  | some (.str "MouseRelease") => do
    let b ← mouseButtonFromJson (← jGet j "button")
    let x ← ratFromJson (← jGet j "x")
    let y ← ratFromJson (← jGet j "y")
    let d ← natFromJson (← jGet j "delay_ms")
    some (.MouseRelease b x y d)
  | some (.str "MouseMove") => do
    let x ← ratFromJson (← jGet j "x")
    let y ← ratFromJson (← jGet j "y")
    let d ← natFromJson (← jGet j "delay_ms")
    some (.MouseMove x y d)
  | some (.str "MouseScroll") => do
    let dx ← intFromJson (← jGet j "delta_x")
    let dy ← intFromJson (← jGet j "delta_y")
    let d ← natFromJson (← jGet j "delay_ms")
    some (.MouseScroll dx dy d)
  | _ => none

/-- `LoopConfig` serializes as a plain two-field object. -/
def loopConfigToJson (lc : LoopConfig) : Json :=
  .obj [("count", .num lc.count), ("delay_between_ms", .num lc.delay_between_ms)]

/-- Parse a `LoopConfig`. -/
def loopConfigFromJson (j : Json) : Option LoopConfig := do
  let c ← natFromJson (← jGet j "count")
  let d ← natFromJson (← jGet j "delay_between_ms")
  some { count := c, delay_between_ms := d }

/-- Parse a list of events element-wise, failing if any element fails. -/
def scriptEventsFromJson : List Json → Option (List ScriptEvent)
  | [] => some []
  | j :: rest => do
    let e ← scriptEventFromJson j
    let es ← scriptEventsFromJson rest
    some (e :: es)

/-- The persisted script schema (spec section 6; lib.rs `save_script`):
a UTF-8 JSON object with fields name, description, created_at,
modified_at, events, loop_config, speed_multiplier. -/
def scriptToJson (s : Script) : Json :=
  .obj [("name", .str s.name),
        ("description", .str s.description),
        ("created_at", .str s.created_at.rfc3339),
        ("modified_at", .str s.modified_at.rfc3339),
        ("events", .arr (s.events.map scriptEventToJson)),
        ("loop_config", loopConfigToJson s.loop_config),
        ("speed_multiplier", .num s.speed_multiplier)]

/-- Parse a persisted script (lib.rs `load_script`). -/
def scriptFromJson (j : Json) : Option Script := do
  let name ← match jGet j "name" with | some (.str v) => some v | _ => none
  let description ← match jGet j "description" with | some (.str v) => some v | _ => none
  let created_at ← match jGet j "created_at" with
    | some (.str v) => some (DateTimeUtc.mk v)
    | _ => none
  let modified_at ← match jGet j "modified_at" with
    | some (.str v) => some (DateTimeUtc.mk v)
    | _ => none
  let events ← match jGet j "events" with
    | some (.arr items) => scriptEventsFromJson items
    | _ => none
  let loop_config ← loopConfigFromJson (← jGet j "loop_config")
  let speed_multiplier ← ratFromJson (← jGet j "speed_multiplier")
  some { name := name, description := description, created_at := created_at
         modified_at := modified_at, events := events, loop_config := loop_config
         speed_multiplier := speed_multiplier }

theorem sliceWait_false : ∀ (fuel t r : Nat), r ≤ fuel →
    ∃ t2, sliceWait (fun _ => false) fuel t r = (false, r, t2) := by
  intro fuel
  induction fuel with
  | zero =>
    intro t r h
    have : r = 0 := Nat.le_zero.mp h
    subst this
    exact ⟨t, rfl⟩
  | succ n ih =>
    intro t r h
    match r with
    | 0 => exact ⟨t, rfl⟩
    | r + 1 =>
      have h1 : (r + 1) - (if r + 1 > 100 then 100 else r + 1) ≤ n := by
        split <;> omega
      obtain ⟨t2, ht2⟩ := ih (t + 1) _ h1
      refine ⟨t2, ?_⟩
      simp only [sliceWait, ht2]
      have h2 : (if r + 1 > 100 then 100 else r + 1) + ((r + 1) - (if r + 1 > 100 then 100 else r + 1)) = r + 1 := by
        split <;> omega
      simp [h2]

theorem execute_event_false (t : Nat) (event : ScriptEvent) (s : ℚ) (useRec : Bool) :
    ∃ t2, execute_event (fun _ => false) t event s useRec =
      (.ok (), adjDelay event.delay_ms s, synthActions event useRec, t2) := by
  unfold execute_event
  by_cases hd : adjDelay event.delay_ms s > 0
  · obtain ⟨t2, ht⟩ := sliceWait_false (adjDelay event.delay_ms s) t
      (adjDelay event.delay_ms s) le_rfl
    exact ⟨t2 + 1, by simp [hd, ht]⟩
  · have h0 : adjDelay event.delay_ms s = 0 := by omega
    exact ⟨t + 1, by simp [hd, h0]⟩

/-- C1: `play_script` fails with the "Already playing" error when a run is
active and with the "Script has no events" error when the event list is
empty; in both failure cases it returns synchronously, spawns no worker
and leaves the playback state unchanged; otherwise it marks playback
active, resets the loop counter, event index and stop flag, spawns the
worker on the script and returns Ok immediately. -/
theorem C1_play_script_contract (st : PlaybackState) (script : Script) :
    (st.is_playing = true →
      play_script st script = (.error "Already playing", st, none)) ∧
    (st.is_playing = false → script.events = [] →
      play_script st script = (.error "Script has no events", st, none)) ∧
    (st.is_playing = false → script.events ≠ [] →
      play_script st script =
        (.ok (), { is_playing := true, current_loop := 0, current_event := 0,
                   stop_requested := false }, some script)) := by
  refine ⟨fun h1 => ?_, fun h1 h2 => ?_, fun h1 h2 => ?_⟩
  · simp [play_script, h1]
  · simp [play_script, h1, h2]
  · simp [play_script, h1, List.isEmpty_iff, h2, PlaybackState.start]

theorem C1_witness :
    play_script ⟨true, 3, 4, false⟩ (Script.defaultAt ⟨"t"⟩) =
      (.error "Already playing", ⟨true, 3, 4, false⟩, none) ∧
    play_script ⟨false, 3, 4, true⟩ (Script.defaultAt ⟨"t"⟩) =
      (.error "Script has no events", ⟨false, 3, 4, true⟩, none) ∧
    play_script ⟨false, 3, 4, true⟩
        { Script.defaultAt ⟨"t"⟩ with events := [.KeyPress (.Char 'a') 0] } =
      (.ok (), ⟨true, 0, 0, false⟩,
       some { Script.defaultAt ⟨"t"⟩ with events := [.KeyPress (.Char 'a') 0] }) :=
  ⟨(C1_play_script_contract ⟨true, 3, 4, false⟩ (Script.defaultAt ⟨"t"⟩)).1 rfl,
   (C1_play_script_contract ⟨false, 3, 4, true⟩ (Script.defaultAt ⟨"t"⟩)).2.1 rfl rfl,
   (C1_play_script_contract ⟨false, 3, 4, true⟩
     { Script.defaultAt ⟨"t"⟩ with events := [.KeyPress (.Char 'a') 0] }).2.2 rfl
     (by decide)⟩

/-- C8: `play_events` behaves identically to `play_script` applied to the
given events and speed wrapped in the default script shell, whose loop
configuration is loop count 1 with zero delay between loops. -/
theorem C8_play_events_refinement (st : PlaybackState) (events : List ScriptEvent)
    (speed : ℚ) (now : DateTimeUtc) :
    play_events st events speed now =
      play_script st
        { name := "Untitled Script", description := "", created_at := now
          modified_at := now, events := events
          loop_config := { count := 1, delay_between_ms := 0 }
          speed_multiplier := speed } := rfl

/-- C10: a `MousePress` or `MouseRelease` carrying `MouseButton.Unknown`
is neither skipped nor a failure at playback: the enigo conversion maps
`Unknown` to the Left button, so the event replays as a left click (with
the usual positioning move when recorded coordinates are used). -/
theorem C10_unknown_button_replays_left (x y : ℚ) (d : Nat) (s : ℚ) (t : Nat)
    (useRec : Bool) :
    mouseButtonToEnigo .Unknown = .Left ∧
    (∃ t2, execute_event (fun _ => false) t (.MousePress .Unknown x y d) s useRec =
      (.ok (), adjDelay d s,
       (if useRec then [.mouseMoveAbs (ratTrunc x) (ratTrunc y)] else [])
         ++ [.buttonDown .Left], t2)) ∧
    (∃ t2, execute_event (fun _ => false) t (.MouseRelease .Unknown x y d) s useRec =
      (.ok (), adjDelay d s,
       (if useRec then [.mouseMoveAbs (ratTrunc x) (ratTrunc y)] else [])
         ++ [.buttonUp .Left], t2)) := by
  refine ⟨rfl, ?_, ?_⟩
  · obtain ⟨t2, ht⟩ := execute_event_false t (.MousePress .Unknown x y d) s useRec
    exact ⟨t2, by simpa [synthActions, mouseButtonToEnigo, ScriptEvent.delay_ms] using ht⟩
  · obtain ⟨t2, ht⟩ := execute_event_false t (.MouseRelease .Unknown x y d) s useRec
    exact ⟨t2, by simpa [synthActions, mouseButtonToEnigo, ScriptEvent.delay_ms] using ht⟩

theorem assocInsert_map_fst (m : List (String × MacroDefinition)) (k : String)
    (v : MacroDefinition) :
    (assocInsert m k v).map Prod.fst =
      if m.any (fun p => p.1 = k) then m.map Prod.fst else m.map Prod.fst ++ [k] := by
  unfold assocInsert
  split
  · have : ∀ (l : List (String × MacroDefinition)),
        (l.map (fun p => if p.1 = k then (k, v) else p)).map Prod.fst = l.map Prod.fst := by
      intro l
      induction l with
      | nil => rfl
      | cons a rest ih =>
        by_cases h : a.1 = k <;> simp [h, ih]
    simp [this]
  · simp

theorem add_macro_entry_nodup (st : MacroState) (d : MacroDefinition)
    (h : (st.macros.map Prod.fst).Nodup) :
    (((st.add_macro_entry d).macros).map Prod.fst).Nodup := by
  unfold MacroState.add_macro_entry
  simp only [assocInsert_map_fst]
  split
  · exact h
  · rename_i hany
    have hnotin : get_trigger_id d.trigger ∉ st.macros.map Prod.fst := by
      intro hmem
      obtain ⟨p, hp, hfst⟩ := List.mem_map.mp hmem
      exact hany (List.any_eq_true.mpr ⟨p, hp, by simp [hfst]⟩)
    simp [List.nodup_append, h, hnotin]

/-- C6: adding two macro definitions whose triggers derive the same
identity string leaves exactly one binding — the one added second — so the
macro list has length 1, not 2; and after any sequence of `add_macro`
calls starting from the empty table there is at most one binding per
distinct trigger identity (the key list is duplicate-free). -/
theorem C6_macro_single_binding :
    (∀ d1 d2 : MacroDefinition,
      get_trigger_id d1.trigger = get_trigger_id d2.trigger →
      ((MacroState.new.add_macro_entry d1).add_macro_entry d2).get_all_macros = [d2] ∧
      ((MacroState.new.add_macro_entry d1).add_macro_entry d2).get_all_macros.length = 1) ∧
    (∀ ds : List MacroDefinition,
      (((ds.foldl MacroState.add_macro_entry MacroState.new).macros).map Prod.fst).Nodup) := by
  constructor
  · intro d1 d2 h
    constructor
    · simp [MacroState.add_macro_entry, MacroState.get_all_macros, MacroState.new,
            assocInsert, h]
    · simp [MacroState.add_macro_entry, MacroState.get_all_macros, MacroState.new,
            assocInsert, h]
  · have inv : ∀ (ds : List MacroDefinition) (st : MacroState),
        (st.macros.map Prod.fst).Nodup →
        (((ds.foldl MacroState.add_macro_entry st).macros).map Prod.fst).Nodup := by
      intro ds
      induction ds with
      | nil => intro st h; exact h
      | cons d rest ih =>
        intro st h
        exact ih (st.add_macro_entry d) (add_macro_entry_nodup st d h)
    exact fun ds => inv ds MacroState.new (by simp [MacroState.new])

theorem C6_witness :
    get_trigger_id (MacroTrigger.KeyPress (.Char 'a')) =
      get_trigger_id (MacroTrigger.KeyPress (.Char 'a')) ∧
    ((MacroState.new.add_macro_entry ⟨"id1", "m1", .KeyPress (.Char 'a'), "p1", true⟩).add_macro_entry
        ⟨"id2", "m2", .KeyPress (.Char 'a'), "p2", true⟩).get_all_macros =
      [⟨"id2", "m2", .KeyPress (.Char 'a'), "p2", true⟩] ∧
    ((MacroState.new.add_macro_entry ⟨"id1", "m1", .KeyPress (.Char 'a'), "p1", true⟩).add_macro_entry
        ⟨"id2", "m2", .KeyPress (.Char 'a'), "p2", true⟩).get_all_macros.length = 1 ∧
    ((([⟨"id1", "m1", .KeyPress (.Char 'a'), "p1", true⟩,
        ⟨"id2", "m2", .KeyPress (.Char 'a'), "p2", true⟩] :
          List MacroDefinition).foldl MacroState.add_macro_entry
        MacroState.new).macros.map Prod.fst).Nodup :=
  ⟨rfl,
   (C6_macro_single_binding.1 ⟨"id1", "m1", .KeyPress (.Char 'a'), "p1", true⟩
     ⟨"id2", "m2", .KeyPress (.Char 'a'), "p2", true⟩ rfl).1,
   (C6_macro_single_binding.1 ⟨"id1", "m1", .KeyPress (.Char 'a'), "p1", true⟩
     ⟨"id2", "m2", .KeyPress (.Char 'a'), "p2", true⟩ rfl).2,
   C6_macro_single_binding.2 _⟩

/-- C5 counterexample: with recording active and 5 ms elapsed since the
last commit, `commit_event` appends the event with its delay field left at
999 rather than stamping it with the elapsed 5 ms — the delay stamping the
claim attributes to `commit_event` is performed by its callers, not by
`commit_event` itself. -/
theorem C5_counterexample :
    ((⟨true, [], some 0, some 0, (0, 0)⟩ : RecordingState).commit_event 5
        (.KeyPress (.Char 'a') 999)).events = [.KeyPress (.Char 'a') 999] ∧
    (⟨true, [], some 0, some 0, (0, 0)⟩ : RecordingState).get_elapsed_ms 5 = 5 ∧
    (999 : Nat) ≠ 5 := by
  refine ⟨rfl, rfl, by decide⟩

/-- C5 (amended): `commit_event` is a no-op when recording is inactive
(log and delay clock unchanged); when recording is active it advances the
delay clock to now and appends the event unchanged. The delay stamping is
performed by its caller: the arbiter's recording path commits events
constructed with `delay_ms` equal to the elapsed time since the last
commit (measured from recording start for the first event), shown here for
a non-hotkey key press. -/
theorem C5_commit_event_contract :
    (∀ (r : RecordingState) (now : Nat) (e : ScriptEvent),
      r.is_recording = false → r.commit_event now e = r) ∧
    (∀ (r : RecordingState) (now : Nat) (e : ScriptEvent),
      r.is_recording = true →
      r.commit_event now e =
        { r with last_event_time := some now, events := r.events ++ [e] }) ∧
    (∀ (w : World) (now : Nat) (k : RdevKey),
      w.recState.is_recording = true → w.playState.is_playing = false →
      k ≠ .F9 → k ≠ .F10 → k ≠ .Escape →
      (handle_event (.KeyPress k) now w).1.recState.events =
        w.recState.events ++
          [.KeyPress (keyFromRdev k) (w.recState.get_elapsed_ms now)]) := by
  refine ⟨fun r now e h => ?_, fun r now e h => ?_, fun w now k hrec hplay h9 h10 hesc => ?_⟩
  · simp [RecordingState.commit_event, h]
  · simp [RecordingState.commit_event, h]
  · cases k with
    | F9 => exact absurd rfl h9
    | F10 => exact absurd rfl h10
    | Escape => exact absurd rfl hesc
    | F5 =>
      simp [handle_event, afterHotkeys, hplay, hrec, recordStep,
            RecordingState.commit_event]
    | KeyA =>
      simp [handle_event, afterHotkeys, hplay, hrec, recordStep,
            RecordingState.commit_event]

theorem C5_witness :
    ((⟨false, [], none, none, (0, 0)⟩ : RecordingState).commit_event 3
        (.KeyPress (.Char 'a') 7) = ⟨false, [], none, none, (0, 0)⟩) ∧
    ((⟨true, [], some 0, some 0, (0, 0)⟩ : RecordingState).commit_event 3
        (.KeyPress (.Char 'a') 7) =
      { (⟨true, [], some 0, some 0, (0, 0)⟩ : RecordingState) with
          last_event_time := some 3, events := [.KeyPress (.Char 'a') 7] }) ∧
    ((handle_event (.KeyPress .F5) 30
        ⟨⟨true, [], some 0, some 0, (0, 0)⟩, PlaybackState.new, MacroState.new,
         HotkeyState.new⟩).1.recState.events =
      [] ++ [.KeyPress (keyFromRdev .F5)
              ((⟨true, [], some 0, some 0, (0, 0)⟩ : RecordingState).get_elapsed_ms 30)]) :=
  ⟨C5_commit_event_contract.1 ⟨false, [], none, none, (0, 0)⟩ 3 (.KeyPress (.Char 'a') 7) rfl,
   C5_commit_event_contract.2.1 ⟨true, [], some 0, some 0, (0, 0)⟩ 3
     (.KeyPress (.Char 'a') 7) rfl,
   C5_commit_event_contract.2.2
     ⟨⟨true, [], some 0, some 0, (0, 0)⟩, PlaybackState.new, MacroState.new, HotkeyState.new⟩
     30 .F5 rfl rfl (by decide) (by decide) (by decide)⟩

/-- C2 counterexample: with the default hotkey configuration (recording
key F9) the claim fails twice over. A key release of F9 — a member of the
configured hotkey set — is not discarded: while recording it is committed
to the recorder's log. And after rebinding the recording hotkey to F5 via
`set_hotkeys`, a key press of F5 is still committed: the arbiter matches
the literal keys F9/F10/Escape, not the rebindable `HotkeyState`. -/
theorem C2_counterexample :
    HotkeyState.new.recording_key = RdevKey.F9 ∧
    (handle_event (.KeyRelease .F9) 30
        ⟨⟨true, [], some 0, some 0, (0, 0)⟩, PlaybackState.new, MacroState.new,
         HotkeyState.new⟩).1.recState.events =
      [.KeyRelease (.Special "F9") 30] ∧
    Effect.committed (.KeyRelease (.Special "F9") 30) ∈
      (handle_event (.KeyRelease .F9) 30
        ⟨⟨true, [], some 0, some 0, (0, 0)⟩, PlaybackState.new, MacroState.new,
         HotkeyState.new⟩).2 ∧
    (set_hotkeys HotkeyState.new (some .F5) none none).recording_key = RdevKey.F5 ∧
    (handle_event (.KeyPress .F5) 30
        ⟨⟨true, [], some 0, some 0, (0, 0)⟩, PlaybackState.new, MacroState.new,
         set_hotkeys HotkeyState.new (some .F5) none none⟩).1.recState.events =
      [.KeyPress (.Special "F5") 30] := by
  refine ⟨rfl, ?_, ?_, rfl, ?_⟩ <;> decide

/-- C2 (amended): the arbiter discards exactly key presses of the fixed
keys F9, F10 and Escape (the default hotkey values): for those events, in
every state, nothing is committed to the recorder and nothing is
dispatched to the macro trigger table. Key releases of hotkeys, and
presses of keys the `HotkeyState` has been rebound to, are not suppressed
(see the counterexample). -/
theorem C2_fixed_hotkey_press_suppressed (w : World) (now : Nat) (k : RdevKey)
    (hk : k = .F9 ∨ k = .F10 ∨ k = .Escape) :
    (∀ e, Effect.committed e ∉ (handle_event (.KeyPress k) now w).2) ∧
    (∀ trigger, Effect.macroChecked trigger ∉ (handle_event (.KeyPress k) now w).2) := by
  rcases hk with h | h | h <;> subst h <;>
    refine ⟨fun e => ?_, fun trigger => ?_⟩ <;>
    simp only [handle_event] <;> split_ifs <;> simp

theorem C2_witness :
    (RdevKey.F9 = RdevKey.F9 ∨ RdevKey.F9 = RdevKey.F10 ∨ RdevKey.F9 = RdevKey.Escape) ∧
    (∀ e, Effect.committed e ∉
      (handle_event (.KeyPress .F9) 30
        ⟨⟨true, [], some 0, some 0, (0, 0)⟩, PlaybackState.new, MacroState.new,
         HotkeyState.new⟩).2) ∧
    (∀ trigger, Effect.macroChecked trigger ∉
      (handle_event (.KeyPress .F9) 30
        ⟨⟨true, [], some 0, some 0, (0, 0)⟩, PlaybackState.new, MacroState.new,
         HotkeyState.new⟩).2) :=
  ⟨Or.inl rfl,
   (C2_fixed_hotkey_press_suppressed
     ⟨⟨true, [], some 0, some 0, (0, 0)⟩, PlaybackState.new, MacroState.new, HotkeyState.new⟩
     30 .F9 (Or.inl rfl)).1,
   (C2_fixed_hotkey_press_suppressed
     ⟨⟨true, [], some 0, some 0, (0, 0)⟩, PlaybackState.new, MacroState.new, HotkeyState.new⟩
     30 .F9 (Or.inl rfl)).2⟩

theorem handle_mouseMove (w : World) (x y : ℚ) (now : Nat)
    (hrec : w.recState.is_recording = true) (hplay : w.playState.is_playing = false) :
    (handle_event (.MouseMove x y) now w).1 =
      { w with recState :=
          (if w.recState.get_elapsed_ms now ≥ 20 then
            (w.recState.update_mouse_position x y).commit_event now
              (.MouseMove x y (w.recState.get_elapsed_ms now))
          else w.recState.update_mouse_position x y) } := by
  by_cases h20 : w.recState.get_elapsed_ms now ≥ 20 <;>
    simp [handle_event, afterHotkeys, hplay, hrec, recordStep, h20]

theorem handle_buttonPress (w : World) (b : RdevButton) (now : Nat)
    (hrec : w.recState.is_recording = true) (hplay : w.playState.is_playing = false) :
    (handle_event (.ButtonPress b) now w).1.recState.events =
      w.recState.events ++
        [.MousePress (MouseButton.fromRdev b) w.recState.get_mouse_position.1
          w.recState.get_mouse_position.2 (w.recState.get_elapsed_ms now)] := by
  simp [handle_event, afterHotkeys, hplay, hrec, recordStep, RecordingState.commit_event]

/-- C4: two consecutive raw pointer moves during recording arriving less
than 20 ms apart produce at most one committed event (a move commits only
when at least 20 ms elapsed since the last committed event of any kind),
while the cursor cache is refreshed on every raw move, so a following
button press records the coordinates of the most recent raw move rather
than those of the last committed one. -/
theorem C4_move_throttle (w : World) (tl t1 t2 t3 : Nat) (x1 y1 x2 y2 : ℚ)
    (b : RdevButton)
    (hrec : w.recState.is_recording = true)
    (hplay : w.playState.is_playing = false)
    (hlast : w.recState.last_event_time = some tl)
    (_h01 : tl ≤ t1) (h12 : t1 ≤ t2) (hlt : t2 < t1 + 20) :
    (handle_event (.MouseMove x2 y2) t2
        (handle_event (.MouseMove x1 y1) t1 w).1).1.recState.events.length ≤
      w.recState.events.length + 1 ∧
    (handle_event (.MouseMove x2 y2) t2
        (handle_event (.MouseMove x1 y1) t1 w).1).1.recState.get_mouse_position = (x2, y2) ∧
    (handle_event (.ButtonPress b) t3
        (handle_event (.MouseMove x2 y2) t2
          (handle_event (.MouseMove x1 y1) t1 w).1).1).1.recState.events =
      (handle_event (.MouseMove x2 y2) t2
        (handle_event (.MouseMove x1 y1) t1 w).1).1.recState.events ++
        [.MousePress (MouseButton.fromRdev b) x2 y2
          ((handle_event (.MouseMove x2 y2) t2
            (handle_event (.MouseMove x1 y1) t1 w).1).1.recState.get_elapsed_ms t3)] := by
  have e1 : w.recState.get_elapsed_ms t1 = t1 - tl := by
    simp [RecordingState.get_elapsed_ms, hlast]
  rw [handle_mouseMove w x1 y1 t1 hrec hplay]
  by_cases hc : w.recState.get_elapsed_ms t1 ≥ 20
  · rw [if_pos hc]
    -- first move committed: clock advances to t1, second move sees < 20 ms
    set r1 := (w.recState.update_mouse_position x1 y1).commit_event t1
      (.MouseMove x1 y1 (w.recState.get_elapsed_ms t1)) with hr1
    have hrec1 : r1.is_recording = true := by
      simp [hr1, RecordingState.commit_event, RecordingState.update_mouse_position, hrec]
    have hlast1 : r1.last_event_time = some t1 := by
      simp [hr1, RecordingState.commit_event, RecordingState.update_mouse_position, hrec]
    have hlen1 : r1.events.length = w.recState.events.length + 1 := by
      simp [hr1, RecordingState.commit_event, RecordingState.update_mouse_position, hrec]
    have e2 : r1.get_elapsed_ms t2 = t2 - t1 := by
      simp [RecordingState.get_elapsed_ms, hlast1]
    have hc2 : ¬ r1.get_elapsed_ms t2 ≥ 20 := by omega
    rw [handle_mouseMove _ x2 y2 t2 (by simpa using hrec1) (by simpa using hplay)]
    simp only [hc2, ite_false, if_neg, not_le]
    refine ⟨?_, ?_, ?_⟩
    · simp [RecordingState.update_mouse_position, hlen1]
    · simp [RecordingState.update_mouse_position, RecordingState.get_mouse_position]
    · rw [handle_buttonPress]
      · simp [RecordingState.update_mouse_position, RecordingState.get_mouse_position]
      · simp [RecordingState.update_mouse_position, hrec1]
      · simpa using hplay
  · rw [if_neg hc]
    set r1 := w.recState.update_mouse_position x1 y1 with hr1
    have hrec1 : r1.is_recording = true := by
      simp [hr1, RecordingState.update_mouse_position, hrec]
    have hlast1 : r1.last_event_time = some tl := by
      simp [hr1, RecordingState.update_mouse_position, hlast]
    have hlen1 : r1.events.length = w.recState.events.length := by
      simp [hr1, RecordingState.update_mouse_position]
    rw [handle_mouseMove _ x2 y2 t2 (by simpa using hrec1) (by simpa using hplay)]
    by_cases hc2 : r1.get_elapsed_ms t2 ≥ 20
    · simp only [hc2, ite_true, if_pos]
      refine ⟨?_, ?_, ?_⟩
      · simp [RecordingState.commit_event, RecordingState.update_mouse_position, hrec1,
              hlen1]
      · simp [RecordingState.commit_event, RecordingState.update_mouse_position,
              RecordingState.get_mouse_position, hrec1]
      · rw [handle_buttonPress]
        · simp [RecordingState.commit_event, RecordingState.update_mouse_position,
                RecordingState.get_mouse_position, hrec1]
        · simp [RecordingState.commit_event, RecordingState.update_mouse_position, hrec1]
        · simpa using hplay
    · simp only [hc2, ite_false, if_neg, not_le]
      refine ⟨?_, ?_, ?_⟩
      · simp [RecordingState.update_mouse_position, hlen1]
      · simp [RecordingState.update_mouse_position, RecordingState.get_mouse_position]
      · rw [handle_buttonPress]
        · simp [RecordingState.update_mouse_position, RecordingState.get_mouse_position]
        · simp [RecordingState.update_mouse_position, hrec1]
        · simpa using hplay

theorem C4_witness :
    ((⟨⟨true, [], some 0, some 0, (0, 0)⟩, PlaybackState.new, MacroState.new,
        HotkeyState.new⟩ : World).recState.is_recording = true) ∧
    ((0 : Nat) ≤ 25 ∧ (25 : Nat) ≤ 30 ∧ (30 : Nat) < 25 + 20) ∧
    ((handle_event (.MouseMove 3 4) 30
        (handle_event (.MouseMove 1 2) 25
          ⟨⟨true, [], some 0, some 0, (0, 0)⟩, PlaybackState.new, MacroState.new,
           HotkeyState.new⟩).1).1.recState.events.length ≤
      (⟨⟨true, [], some 0, some 0, (0, 0)⟩, PlaybackState.new, MacroState.new,
        HotkeyState.new⟩ : World).recState.events.length + 1 ∧
    (handle_event (.MouseMove 3 4) 30
        (handle_event (.MouseMove 1 2) 25
          ⟨⟨true, [], some 0, some 0, (0, 0)⟩, PlaybackState.new, MacroState.new,
           HotkeyState.new⟩).1).1.recState.get_mouse_position = (3, 4) ∧
    (handle_event (.ButtonPress .Left) 100
        (handle_event (.MouseMove 3 4) 30
          (handle_event (.MouseMove 1 2) 25
            ⟨⟨true, [], some 0, some 0, (0, 0)⟩, PlaybackState.new, MacroState.new,
             HotkeyState.new⟩).1).1).1.recState.events =
      (handle_event (.MouseMove 3 4) 30
        (handle_event (.MouseMove 1 2) 25
          ⟨⟨true, [], some 0, some 0, (0, 0)⟩, PlaybackState.new, MacroState.new,
           HotkeyState.new⟩).1).1.recState.events ++
        [.MousePress (MouseButton.fromRdev .Left) 3 4
          ((handle_event (.MouseMove 3 4) 30
            (handle_event (.MouseMove 1 2) 25
              ⟨⟨true, [], some 0, some 0, (0, 0)⟩, PlaybackState.new, MacroState.new,
               HotkeyState.new⟩).1).1.recState.get_elapsed_ms 100)]) :=
  ⟨rfl, ⟨by decide, by decide, by decide⟩,
   C4_move_throttle
     ⟨⟨true, [], some 0, some 0, (0, 0)⟩, PlaybackState.new, MacroState.new, HotkeyState.new⟩
     0 25 30 100 1 2 3 4 .Left rfl rfl rfl (by decide) (by decide) (by decide)⟩

/-- C7: in a playback run with no stop request, the wait executed before
synthesizing an event is exactly the computed `adjDelay delay_ms s`
milliseconds (the slice loop sleeps the full amount), `adjDelay` is the
truncation of `delay_ms / s` and so lies within 1 ms of it — well inside
the 100 ms slice-granularity tolerance — and with `s = 1` the wait equals
`delay_ms` exactly, reproducing the original timing. -/
theorem C7_speed_scaling (event : ScriptEvent) (s : ℚ) (t : Nat) (useRec : Bool)
    (d : Nat) :
    (∃ t2, execute_event (fun _ => false) t event s useRec =
      (.ok (), adjDelay event.delay_ms s, synthActions event useRec, t2)) ∧
    (0 < s → (adjDelay d s : ℚ) ≤ (d : ℚ) / s ∧ (d : ℚ) / s < (adjDelay d s : ℚ) + 1) ∧
    adjDelay d 1 = d := by
  refine ⟨execute_event_false t event s useRec, fun hs => ?_, ?_⟩
  · have hnn : (0 : ℚ) ≤ (d : ℚ) / s := div_nonneg (by positivity) hs.le
    have hge : 0 ≤ ⌊(d : ℚ) / s⌋ := Int.floor_nonneg.mpr hnn
    have key : (adjDelay d s : ℚ) = ((⌊(d : ℚ) / s⌋ : ℤ) : ℚ) := by
      unfold adjDelay
      exact_mod_cast congrArg (fun z : ℤ => (z : ℚ)) (Int.toNat_of_nonneg hge)
    rw [key]
    exact ⟨Int.floor_le _, Int.lt_floor_add_one _⟩
  · simp [adjDelay]

theorem C7_witness :
    (0 < (2 : ℚ)) ∧
    ((adjDelay 250 2 : ℚ) ≤ (250 : ℚ) / 2 ∧
      (250 : ℚ) / 2 < (adjDelay 250 2 : ℚ) + 1) ∧
    adjDelay 250 2 = 125 ∧ adjDelay 250 1 = 250 :=
  ⟨by norm_num,
   (C7_speed_scaling (.KeyPress (.Char 'a') 250) 2 0 false 250).2.1 (by norm_num),
   by norm_num [adjDelay]; rfl,
   (C7_speed_scaling (.KeyPress (.Char 'a') 250) 2 0 false 250).2.2⟩

theorem run_events_false (sp : ℚ) (useRec : Bool) :
    ∀ (l : List (Nat × ScriptEvent)) (t : Nat) (st : PlaybackState),
    ∃ t2 ce, run_events (fun _ => false) sp useRec t l st =
      ({ st with current_event := ce },
       (l.map (fun p => synthActions p.2 useRec)).flatten, t2, false, false) := by
  intro l
  induction l with
  | nil =>
    intro t st
    exact ⟨t, st.current_event, rfl⟩
  | cons p rest ih =>
    intro t st
    obtain ⟨idx, ev⟩ := p
    obtain ⟨t1, hexec⟩ := execute_event_false t ev sp useRec
    obtain ⟨t2, ce, hrest⟩ := ih (t1 + 1) (st.set_event_index idx)
    simp only [PlaybackState.set_event_index] at hrest
    refine ⟨t2, ce, ?_⟩
    simp only [run_events, hexec, PlaybackState.set_event_index, hrest]
    simp

theorem enum_map_snd_comp (f : ScriptEvent → List SynthAction) (l : List ScriptEvent) :
    l.enum.map (fun p => f p.2) = l.map f := by
  conv_rhs => rw [← List.enum_map_snd l]
  rw [List.map_map]
  rfl

theorem play_loop_succ (σ : Nat → Bool) (sp : ℚ) (events : List ScriptEvent)
    (cnt db : Nat) (useRec : Bool) (fuel t : Nat) (st : PlaybackState) :
    play_loop σ sp events cnt db useRec (fuel + 1) t st =
      (if cnt ≠ 0 ∧ st.increment_loop.1 > cnt then some (st.increment_loop.2.finish, [])
       else if σ t then some (st.increment_loop.2.finish, [])
       else
         let r := run_events σ sp useRec (t + 1) events.enum st.increment_loop.2
         if r.2.2.2.1 then some (r.1.finish, r.2.1)
         else
           let t2 := if db > 0 then r.2.2.1 + 1 else r.2.2.1
           match play_loop σ sp events cnt db useRec fuel t2 r.1 with
           | none => none
           | some (stF, acts) => some (stF, r.2.1 ++ acts)) := rfl

theorem play_loop_false_finite (sp : ℚ) (events : List ScriptEvent) (db : Nat)
    (useRec : Bool) (N : Nat) (hN : 0 < N) :
    ∀ (m : Nat) (t : Nat) (st : PlaybackState), st.current_loop + m = N →
    ∃ stF, play_loop (fun _ => false) sp events N db useRec (m + 1) t st =
      some (stF, (List.replicate m
        ((events.map (fun e => synthActions e useRec)).flatten)).flatten) ∧
      stF.is_playing = false := by
  intro m
  induction m with
  | zero =>
    intro t st h
    refine ⟨st.increment_loop.2.finish, ?_, rfl⟩
    have hcond : N ≠ 0 ∧ st.increment_loop.1 > N := by
      refine ⟨by omega, ?_⟩
      simp only [PlaybackState.increment_loop]
      omega
    simp only [play_loop]
    rw [if_pos hcond]
    simp
  | succ m ih =>
    intro t st h
    have hcond : ¬ (N ≠ 0 ∧ st.increment_loop.1 > N) := by
      simp only [PlaybackState.increment_loop]
      omega
    obtain ⟨t2, ce, hrest⟩ := run_events_false sp useRec events.enum (t + 1) st.increment_loop.2
    have hloop : ({ st.increment_loop.2 with current_event := ce } :
        PlaybackState).current_loop + m = N := by
      simp only [PlaybackState.increment_loop]
      omega
    obtain ⟨stF, hplay2, hfin⟩ :=
      ih (if db > 0 then t2 + 1 else t2) { st.increment_loop.2 with current_event := ce } hloop
    refine ⟨stF, ?_, hfin⟩
    rw [play_loop_succ]
    rw [if_neg hcond]
    simp only [Bool.false_eq_true, if_false, hrest]
    simp only [hplay2]
    rw [enum_map_snd_comp (fun e => synthActions e useRec) events]
    simp [List.replicate_succ]

theorem play_loop_false_infinite (sp : ℚ) (events : List ScriptEvent) (db : Nat)
    (useRec : Bool) :
    ∀ (fuel t : Nat) (st : PlaybackState),
    play_loop (fun _ => false) sp events 0 db useRec fuel t st = none := by
  intro fuel
  induction fuel with
  | zero => intro t st; rfl
  | succ n ih =>
    intro t st
    obtain ⟨t2, ce, hrest⟩ :=
      run_events_false sp useRec events.enum (t + 1) st.increment_loop.2
    rw [play_loop_succ]
    have hcond : ¬ ((0 : Nat) ≠ 0 ∧ st.increment_loop.1 > 0) := by omega
    rw [if_neg hcond]
    simp only [Bool.false_eq_true, if_false, hrest]
    simp [ih]

theorem play_loop_stopped (σ : Nat → Bool) (sp : ℚ) (events : List ScriptEvent)
    (cnt db : Nat) (useRec : Bool)
    (hmono : ∀ i j, i ≤ j → σ i = true → σ j = true)
    (i t : Nat) (hi : σ i = true) (hit : i ≤ t) (fuel : Nat) (st : PlaybackState) :
    ∃ stF, play_loop σ sp events cnt db useRec (fuel + 1) t st = some (stF, []) ∧
      stF.is_playing = false := by
  have hσt : σ t = true := hmono i t hit hi
  refine ⟨st.increment_loop.2.finish, ?_, rfl⟩
  rw [play_loop_succ]
  by_cases hcond : cnt ≠ 0 ∧ st.increment_loop.1 > cnt
  · rw [if_pos hcond]
  · rw [if_neg hcond, hσt]
    simp

/-- C3: with `loop_config.count = N > 0` and no stop request, the worker
executes the full event sequence exactly N times (the loop counter is
incremented and compared to the bound before each pass, so count 1 runs
exactly once) and then tears down; with `count = 0` and no stop request
the loop never terminates, however much fuel it is given; and once a stop
request has been observed (the stop flag is sticky: any read at or after
the requesting read returns true), the next top-of-loop check aborts the
run, so no further pass of the event sequence begins. -/
theorem C3_loop_count_semantics :
    (∀ (script : Script) (N : Nat), script.loop_config.count = N → 0 < N →
      ∃ stF, play_worker (fun _ => false) script (N + 1) =
        some (stF, (List.replicate N (passTrace script)).flatten) ∧
        stF.is_playing = false) ∧
    (∀ script : Script, script.loop_config.count = 0 →
      ∀ fuel, play_worker (fun _ => false) script fuel = none) ∧
    (∀ (σ : Nat → Bool) (sp : ℚ) (events : List ScriptEvent) (cnt db : Nat)
        (useRec : Bool),
      (∀ i j, i ≤ j → σ i = true → σ j = true) →
      ∀ i t, σ i = true → i ≤ t →
      ∀ (fuel : Nat) (st : PlaybackState),
      ∃ stF, play_loop σ sp events cnt db useRec (fuel + 1) t st = some (stF, []) ∧
        stF.is_playing = false) := by
  refine ⟨fun script N hc hN => ?_, fun script hc fuel => ?_,
    fun σ sp events cnt db useRec hmono i t hi hit fuel st => ?_⟩
  · unfold play_worker
    rw [hc]
    exact play_loop_false_finite script.speed_multiplier script.events
      script.loop_config.delay_between_ms (hasMouseMoves script.events) N hN N 0
      PlaybackState.new.start (by simp [PlaybackState.new, PlaybackState.start])
  · unfold play_worker
    rw [hc]
    exact play_loop_false_infinite script.speed_multiplier script.events
      script.loop_config.delay_between_ms (hasMouseMoves script.events) fuel 0
      PlaybackState.new.start
  · exact play_loop_stopped σ sp events cnt db useRec hmono i t hi hit fuel st

theorem C3_witness :
    ((⟨"s", "", ⟨"t"⟩, ⟨"t"⟩, [.MouseMove 1 2 0], ⟨2, 0⟩, 1⟩ :
        Script).loop_config.count = 2 ∧ (0 : Nat) < 2 ∧
      ∃ stF, play_worker (fun _ => false)
          ⟨"s", "", ⟨"t"⟩, ⟨"t"⟩, [.MouseMove 1 2 0], ⟨2, 0⟩, 1⟩ 3 =
        some (stF, (List.replicate 2
          (passTrace ⟨"s", "", ⟨"t"⟩, ⟨"t"⟩, [.MouseMove 1 2 0], ⟨2, 0⟩, 1⟩)).flatten) ∧
        stF.is_playing = false) ∧
    ((⟨"s", "", ⟨"t"⟩, ⟨"t"⟩, [.MouseMove 1 2 0], ⟨0, 0⟩, 1⟩ :
        Script).loop_config.count = 0 ∧
      play_worker (fun _ => false)
        ⟨"s", "", ⟨"t"⟩, ⟨"t"⟩, [.MouseMove 1 2 0], ⟨0, 0⟩, 1⟩ 5 = none) ∧
    ∃ stF, play_loop (fun _ => true) 1 [] 1 0 false 1 0 PlaybackState.new =
        some (stF, []) ∧ stF.is_playing = false :=
  ⟨⟨rfl, by decide,
    C3_loop_count_semantics.1 ⟨"s", "", ⟨"t"⟩, ⟨"t"⟩, [.MouseMove 1 2 0], ⟨2, 0⟩, 1⟩ 2
      rfl (by decide)⟩,
   ⟨rfl,
    C3_loop_count_semantics.2.1 ⟨"s", "", ⟨"t"⟩, ⟨"t"⟩, [.MouseMove 1 2 0], ⟨0, 0⟩, 1⟩
      rfl 5⟩,
   C3_loop_count_semantics.2.2 (fun _ => true) 1 [] 1 0 false
     (fun _ _ _ h => h) 0 0 rfl (Nat.le_refl 0) 0 PlaybackState.new⟩

theorem natFromJson_cast (n : Nat) : natFromJson (.num (n : ℚ)) = some n := by
  simp [natFromJson]

theorem intFromJson_cast (i : Int) : intFromJson (.num (i : ℚ)) = some i := by
  simp [intFromJson]

theorem mouseButton_roundtrip (b : MouseButton) :
    mouseButtonFromJson (mouseButtonToJson b) = some b := by
  cases b <;> rfl

theorem keyboardKey_roundtrip (k : KeyboardKey) :
    keyboardKeyFromJson (keyboardKeyToJson k) = some k := by
  cases k <;> rfl

theorem scriptEvent_roundtrip (e : ScriptEvent) :
    scriptEventFromJson (scriptEventToJson e) = some e := by
  cases e <;>
    simp [scriptEventToJson, scriptEventFromJson, jGet, jLookup, natFromJson_cast,
          intFromJson_cast, mouseButton_roundtrip, keyboardKey_roundtrip, ratFromJson]

theorem scriptEvents_roundtrip (l : List ScriptEvent) :
    scriptEventsFromJson (l.map scriptEventToJson) = some l := by
  induction l with
  | nil => rfl
  | cons e rest ih => simp [scriptEventsFromJson, scriptEvent_roundtrip, ih]

theorem loopConfig_roundtrip (lc : LoopConfig) :
    loopConfigFromJson (loopConfigToJson lc) = some lc := by
  simp [loopConfigToJson, loopConfigFromJson, jGet, jLookup, natFromJson_cast]

/-- C9: serializing a `Script` to the JSON persistence format (fields
name, description, created_at, modified_at, events, loop_config,
speed_multiplier, with every event a tagged object carrying the
`event_type` discriminator and its `delay_ms`) and parsing the result
reproduces an equal `Script` value. -/
theorem C9_script_roundtrip (s : Script) :
    scriptFromJson (scriptToJson s) = some s := by
  simp [scriptToJson, scriptFromJson, jGet, jLookup, scriptEvents_roundtrip,
        loopConfig_roundtrip, ratFromJson]
